import Mathlib

set_option autoImplicit false

/-!
Verification development for the hdtv plugin layer: the configuration
option store, the identifier resolver, the spectrum interface
(`specInterface.py`) and the fit interface (`fitInterface.py`).

Machine integers do not occur in this layer; Python ints are modelled as
`Nat` (all ids are non-negative), Python floats (marker positions,
calibration coefficients) as `ℚ`, Python exceptions as `Except`.
-/

/-! ## Identifiers and the identifier resolver

Modelled from the spec: `hdtv.util.ID` and `hdtv.util.ID.ParseIds` live in
`hdtv/util.py`, which is not among the reviewed sources (only its callers
are).  The model follows spec section 4.3: split on whitespace/commas,
expand each token (integer, inclusive range "a-b", dotted "major.minor",
keywords "all"/"none"; callers also pass "active" for the active object),
and, when `onlyExistent` is true, drop ids not present in the container.
-/

/-- An identifier: major/minor pair, minor may be absent
(whole-object reference). -/
structure ID where
  major : Nat
  minor : Option Nat
deriving DecidableEq, Repr

/-- The view of a container that id resolution needs: its keys and its
active id. -/
structure IdContainer where
  keys : List ID
  activeID : Option ID
deriving DecidableEq, Repr

/-- Split a list of characters at the separators given by `p`
(separators are dropped, empty runs are kept). -/
def splitList (p : Char → Bool) : List Char → List (List Char)
  | [] => [[]]
  | c :: cs =>
    if p c then
      [] :: splitList p cs
    else
      match splitList p cs with
      | [] => [[c]]
      | t :: ts => (c :: t) :: ts

/-- Numeric value of a decimal digit character, if it is one. -/
def digitVal (c : Char) : Option Nat :=
  if c.isDigit then some (c.toNat - 48) else none

/-- Parse a non-empty all-digit character list as a natural number
(model of Python int() on the strings occurring in id expressions). -/
def parseNat : List Char → Option Nat
  | [] => none
  | cs => cs.foldlM (fun acc c => (digitVal c).map (fun d => acc * 10 + d)) 0

/-- Inclusive integer range a..b as whole-object identifiers. -/
def rangeIds (a b : Nat) : List ID :=
  (List.range' a (b + 1 - a)).map (fun n => ID.mk n none)

/-- Expand a single token of an id expression.  `none` models the
ValueError raised on malformed text. -/
def parseTok (c : IdContainer) (t : List Char) : Option (List ID) :=
  if t = "all".toList then some c.keys
  else if t = "none".toList then some []
  else if t = "active".toList then
    some (match c.activeID with | some i => [i] | none => [])
  else
    match splitList (fun ch => ch = '-') t with
    | [s] =>
      (match splitList (fun ch => ch = '.') s with
       | [sm] => (parseNat sm).map (fun n => [ID.mk n none])
       | [sma, smi] => do
           let ma ← parseNat sma
           let mi ← parseNat smi
           pure [ID.mk ma (some mi)]
       | _ => none)
    | [sa, sb] => do
        let a ← parseNat sa
        let b ← parseNat sb
        pure (rangeIds a b)
    | _ => none

/-- Tokens of an id expression: split on whitespace and commas, drop
empty tokens. -/
def idTokens (text : String) : List (List Char) :=
  (splitList (fun ch => ch = ',' || ch.isWhitespace) text.toList).filter (fun t => t ≠ [])

/-- Does the container hold an object with this major id? -/
def hasMajor (c : IdContainer) (i : ID) : Bool :=
  c.keys.any (fun k => k.major = i.major)

/-- `ParseIds` (modelled from the spec, section 4.3): resolve an id
expression against a container; `none` models the ValueError raised on
malformed expressions. -/
def ParseIds (text : String) (c : IdContainer) (onlyExistent : Bool) : Option (List ID) := do
  let idss ← (idTokens text).mapM (parseTok c)
  let ids := idss.flatten
  pure (if onlyExistent then ids.filter (fun i => hasMajor c i) else ids)

/-! ## ExtractFits (fitInterface.py lines 229-252)

`FitInterface.ExtractFits` consumes, for each fit, the pair returned by
the collaborator call `fit.ExtractParams()`: a list of peak rows and a
list of parameter names.  The fit objects themselves are opaque here, so
the function is stated over those pairs; the row type `ρ` is opaque. -/

/-- Transliteration of `FitInterface.ExtractFits`: loop through fits,
skip fits with an empty peak list, append unseen parameter names in
order, extend the row list with the fit's peaks. -/
def ExtractFits {ρ : Type} (fits : List (List ρ × List String)) : List ρ × List String :=
  fits.foldl
    (fun acc fit =>
      if fit.1.length = 0 then acc
      else
        (acc.1 ++ fit.1,
         fit.2.foldl (fun ps p => if p ∈ ps then ps else ps ++ [p]) acc.2))
    ([], [])

/-- Spec-side definition (for comparison with `ExtractFits`): insert one
parameter name, keeping first-seen order and suppressing duplicates. -/
def orderedInsert1 (ps : List String) (p : String) : List String :=
  if p ∈ ps then ps else ps ++ [p]

/-- Spec-side definition: ordered union of parameter-name lists,
first-seen insertion order preserved, duplicates suppressed. -/
def orderedUnion (pss : List (List String)) : List String :=
  pss.foldl (fun acc ps => ps.foldl orderedInsert1 acc) []

lemma orderedInsert1_nodup (ps : List String) (p : String) (h : ps.Nodup) :
    (orderedInsert1 ps p).Nodup := by
  unfold orderedInsert1
  split
  · exact h
  · rename_i hp
    simp [List.nodup_append, h, hp]

lemma foldl_orderedInsert1_nodup (ps : List String) :
    ∀ acc : List String, acc.Nodup → (ps.foldl orderedInsert1 acc).Nodup := by
  induction ps with
  | nil => intro acc h; simpa using h
  | cons p ps ih =>
    intro acc h
    simpa using ih _ (orderedInsert1_nodup acc p h)

lemma extractFits_foldl {ρ : Type} (fits : List (List ρ × List String)) :
    ∀ acc : List ρ × List String,
      fits.foldl
        (fun acc fit =>
          if fit.1.length = 0 then acc
          else
            (acc.1 ++ fit.1,
             fit.2.foldl (fun ps p => if p ∈ ps then ps else ps ++ [p]) acc.2))
        acc
      = (acc.1 ++ (fits.map Prod.fst).flatten,
         ((fits.filter (fun f => !f.1.isEmpty)).map Prod.snd).foldl
            (fun a ps => ps.foldl orderedInsert1 a) acc.2) := by
  induction fits with
  | nil => intro acc; simp
  | cons f fs ih =>
    intro acc
    by_cases hf : f.1 = []
    · simp [hf, ih]
    · have hlen : ¬ f.1.length = 0 := by simpa using hf
      simp only [List.foldl_cons, if_neg hlen, ih, List.map_cons, List.flatten_cons,
        List.filter_cons]
      simp [hf, List.append_assoc]
      rfl

/-- Claim C6: for every list of fits, `ExtractFits` returns as rows the
concatenation of the fits' extracted peak lists, and as parameter list
the ordered union (first-seen insertion order preserved, duplicates
suppressed) of the parameter names of exactly the fits that contribute
at least one peak; a zero-peak fit contributes no rows (the
concatenation skips nothing else) and is excluded from the column set. -/
theorem extractFits_rows_params {ρ : Type} (fits : List (List ρ × List String)) :
    (ExtractFits fits).1 = (fits.map Prod.fst).flatten
    ∧ (ExtractFits fits).2
        = orderedUnion ((fits.filter (fun f => !f.1.isEmpty)).map Prod.snd)
    ∧ (ExtractFits fits).2.Nodup := by
  have h := extractFits_foldl fits ([], [])
  unfold ExtractFits
  rw [h]
  refine ⟨by simp, rfl, ?_⟩
  · generalize ((fits.filter (fun f => !f.1.isEmpty)).map Prod.snd) = pss
    show (pss.foldl (fun a ps => ps.foldl orderedInsert1 a) []).Nodup
    have : ∀ acc : List String, acc.Nodup →
        (pss.foldl (fun a ps => ps.foldl orderedInsert1 a) acc).Nodup := by
      induction pss with
      | nil => intro acc h; simpa using h
      | cons ps pss ih => intro acc h; simpa using ih _ (foldl_orderedInsert1_nodup ps acc h)
    exact this [] (by simp)

/-- Claim C7: resolving an identifier expression of the form "a-b" with
`onlyExistent` true yields exactly the integers of the inclusive range
[a,b] intersected with the container's existing keys; in particular the
spec scenario: ParseIds "2-4,7" against a container with ids
1,2,3,4,5,7 returns [2,3,4,7]. -/
theorem parseIds_range_spec (e : String) (t sa sb : List Char) (a b : Nat) (c : IdContainer)
    (htok : idTokens e = [t])
    (hsplit : splitList (fun ch => ch = '-') t = [sa, sb])
    (ha : parseNat sa = some a) (hb : parseNat sb = some b) :
    ParseIds e c true = some ((rangeIds a b).filter (fun i => hasMajor c i))
    ∧ (∀ n : Nat,
        ID.mk n none ∈ (rangeIds a b).filter (fun i => hasMajor c i)
          ↔ (a ≤ n ∧ n ≤ b ∧ hasMajor c (ID.mk n none) = true))
    ∧ ParseIds "2-4,7"
        ⟨[⟨1,none⟩,⟨2,none⟩,⟨3,none⟩,⟨4,none⟩,⟨5,none⟩,⟨7,none⟩], none⟩ true
      = some [⟨2,none⟩,⟨3,none⟩,⟨4,none⟩,⟨7,none⟩] := by
  have hta : t ≠ "all".toList := by
    intro h
    rw [h] at hsplit
    have h2 : splitList (fun ch => ch = '-') "all".toList = ["all".toList] := by decide
    rw [h2] at hsplit
    simp at hsplit
  have htn : t ≠ "none".toList := by
    intro h
    rw [h] at hsplit
    have h2 : splitList (fun ch => ch = '-') "none".toList = ["none".toList] := by decide
    rw [h2] at hsplit
    simp at hsplit
  have htc : t ≠ "active".toList := by
    intro h
    rw [h] at hsplit
    have h2 : splitList (fun ch => ch = '-') "active".toList = ["active".toList] := by decide
    rw [h2] at hsplit
    simp at hsplit
  have hpt : parseTok c t = some (rangeIds a b) := by
    unfold parseTok
    rw [if_neg hta, if_neg htn, if_neg htc, hsplit]
    simp [ha, hb]
  refine ⟨?_, ?_, by decide⟩
  · unfold ParseIds
    rw [htok]
    have hmap : ([t].mapM (parseTok c)) = some [rangeIds a b] := by
      rw [List.mapM_cons, hpt, List.mapM_nil]
      rfl
    rw [hmap]
    simp
  · intro n
    simp only [List.mem_filter, rangeIds, List.mem_map]
    constructor
    · rintro ⟨⟨m, hm, hmk⟩, hmaj⟩
      cases hmk
      rw [List.mem_range'_1] at hm
      exact ⟨hm.1, by omega, hmaj⟩
    · rintro ⟨h1, h2, h3⟩
      exact ⟨⟨n, by rw [List.mem_range'_1]; omega, rfl⟩, h3⟩

/-- Witness for C7 at the concrete expression "2-4" and the scenario
container. -/
theorem parseIds_range_spec_witness :
    ParseIds "2-4" ⟨[⟨1,none⟩,⟨2,none⟩,⟨3,none⟩,⟨4,none⟩,⟨5,none⟩,⟨7,none⟩], none⟩ true
      = some [⟨2,none⟩,⟨3,none⟩,⟨4,none⟩] := by
  have h := parseIds_range_spec "2-4" "2-4".toList "2".toList "4".toList 2 4
      ⟨[⟨1,none⟩,⟨2,none⟩,⟨3,none⟩,⟨4,none⟩,⟨5,none⟩,⟨7,none⟩], none⟩
      (by decide) (by decide) (by decide) (by decide)
  rw [h.1]
  decide

/-! ## Options store (modelled from the spec, section 4.2): `hdtv.options`
is not among the reviewed sources (only its caller `config.py` is). -/

structure Opt (V : Type) where
  default : V
  parse : String → Except String V
  value : V

def OptionNew {V : Type} (d : V) (p : String → Except String V) : Opt V :=
  { default := d, parse := p, value := d }

abbrev OptStore (V : Type) := List (String × Opt V)

def lookupOpt {V : Type} (st : OptStore V) (name : String) : Option (Opt V) :=
  match st with
  | [] => none
  | e :: es => if e.1 = name then some e.2 else lookupOpt es name

def RegisterOption {V : Type} (st : OptStore V) (name : String) (o : Opt V) :
    Except Unit (OptStore V) :=
  if (lookupOpt st name).isSome then .error () else .ok (st ++ [(name, o)])

def OptSet {V : Type} (o : Opt V) (raw : String) : Except String (Opt V) :=
  match o.parse raw with
  | .error e => .error e
  | .ok v => .ok { o with value := v }

inductive SetErr
  | unknownOption
  | invalidValue (msg : String)
deriving DecidableEq

def storeSet {V : Type} (st : OptStore V) (name raw : String) : Except SetErr (OptStore V) :=
  match lookupOpt st name with
  | none => .error .unknownOption
  | some o =>
    match OptSet o raw with
    | .error m => .error (.invalidValue m)
    | .ok o2 => .ok (st.map (fun e => if e.1 = name then (e.1, o2) else e))

def storeGet {V : Type} (st : OptStore V) (name : String) : Option V :=
  (lookupOpt st name).map (fun o => o.value)

inductive CmdOutcome
  | ok
  | abort
deriving DecidableEq

def ConfigSet {V : Type} (varname value : String) (st : OptStore V) :
    OptStore V × CmdOutcome :=
  match storeSet st varname value with
  | .error _ => (st, .abort)
  | .ok st2 => (st2, .ok)

def OptInv {V : Type} (o : Opt V) : Prop :=
  o.value = o.default ∨ ∃ raw, o.parse raw = .ok o.value

def StoreInv {V : Type} (st : OptStore V) : Prop := ∀ e ∈ st, OptInv e.2

lemma lookupOpt_map_update {V : Type} (st : OptStore V) (name : String) (o2 : Opt V)
    (h : (lookupOpt st name).isSome) :
    lookupOpt (st.map (fun e => if e.1 = name then (e.1, o2) else e)) name = some o2 := by
  induction st with
  | nil => simp [lookupOpt] at h
  | cons e es ih =>
    by_cases he : e.1 = name
    · simp [lookupOpt, he]
    · simp only [lookupOpt, if_neg he] at h
      simp only [List.map_cons, if_neg he, lookupOpt, if_neg he]
      exact ih h

/-- Claim C2: for every registered option, Set followed by Get returns
the value the parse function produces from the raw input; an absent name
fails with UnknownOption, a parse failure with InvalidValue, both
surfaced by the config set command as an abort with the store unchanged;
and the stored value is always either the default or a value that passed
the parse function (invariant preserved by registration and set). -/
theorem configSet_spec {V : Type} (st : OptStore V) (name raw : String) :
    (∀ o v, lookupOpt st name = some o → o.parse raw = .ok v →
       storeSet st name raw
           = .ok (st.map (fun e => if e.1 = name then (e.1, { o with value := v }) else e))
       ∧ storeGet (st.map (fun e => if e.1 = name then (e.1, { o with value := v }) else e))
           name = some v)
    ∧ (∀ o m, lookupOpt st name = some o → o.parse raw = .error m →
       storeSet st name raw = .error (.invalidValue m))
    ∧ (lookupOpt st name = none → storeSet st name raw = .error .unknownOption)
    ∧ (∀ e, storeSet st name raw = .error e → ConfigSet name raw st = (st, .abort))
    ∧ (StoreInv st → ∀ st2, storeSet st name raw = .ok st2 → StoreInv st2)
    ∧ (∀ d p st2, RegisterOption st name (OptionNew d p) = .ok st2 → StoreInv st → StoreInv st2) := by
  refine ⟨?_, ?_, ?_, ?_, ?_, ?_⟩
  · intro o v ho hp
    constructor
    · simp [storeSet, ho, OptSet, hp]
    · have := lookupOpt_map_update st name { o with value := v } (by simp [ho])
      simp [storeGet, this]
  · intro o m ho hp
    simp [storeSet, ho, OptSet, hp]
  · intro h
    simp [storeSet, h]
  · intro e he
    simp [ConfigSet, he]
  · intro hinv st2 hok
    cases ho : lookupOpt st name with
    | none => simp [storeSet, ho] at hok
    | some o =>
      cases hp : o.parse raw with
      | error m => simp [storeSet, ho, OptSet, hp] at hok
      | ok v =>
        simp only [storeSet, ho, OptSet, hp, Except.ok.injEq] at hok
        subst hok
        intro e he
        simp only [List.mem_map] at he
        obtain ⟨e0, he0, heq⟩ := he
        by_cases h1 : e0.1 = name
        · rw [← heq]
          simp only [if_pos h1]
          right
          exact ⟨raw, hp⟩
        · rw [← heq]
          simp only [if_neg h1]
          exact hinv e0 he0
  · intro d p st2 hreg hinv
    unfold RegisterOption at hreg
    split at hreg
    · cases hreg
    · cases hreg
      intro e he
      rcases List.mem_append.1 he with h | h
      · exact hinv e h
      · simp at h
        rw [h]
        left
        rfl

def natParse (s : String) : Except String Nat :=
  match s.toList.foldlM (fun acc c => if c.isDigit then some (acc * 10 + (c.toNat - 48)) else none) 0 with
  | some n => .ok n
  | none => .error "invalid literal"

def demoOptStore : OptStore Nat := [("fit.quickfit.region", OptionNew 20 natParse)]

def demoStoreAfter : OptStore Nat :=
  [("fit.quickfit.region", { default := 20, parse := natParse, value := 15 })]

theorem configSet_spec_witness :
    storeSet demoOptStore "fit.quickfit.region" "15" = .ok demoStoreAfter
    ∧ storeGet demoStoreAfter "fit.quickfit.region" = some 15
    ∧ storeSet demoOptStore "fit.quickfit.region" "abc"
        = .error (SetErr.invalidValue "invalid literal")
    ∧ storeSet demoOptStore "missing" "1" = .error SetErr.unknownOption
    ∧ ConfigSet "fit.quickfit.region" "abc" demoOptStore = (demoOptStore, CmdOutcome.abort)
    ∧ StoreInv demoStoreAfter := by
  have h := configSet_spec demoOptStore "fit.quickfit.region" "15"
  have h1 := h.1 (OptionNew 20 natParse) 15 rfl rfl
  have hbad := (configSet_spec demoOptStore "fit.quickfit.region" "abc").2.1
      (OptionNew 20 natParse) "invalid literal" rfl rfl
  have hinv : StoreInv demoOptStore := by
    intro e he
    simp only [demoOptStore, List.mem_singleton] at he
    rw [he]
    left
    rfl
  refine ⟨h1.1, h1.2, hbad, ?_, ?_, ?_⟩
  · exact (configSet_spec demoOptStore "missing" "1").2.2.1 rfl
  · exact (configSet_spec demoOptStore "fit.quickfit.region" "abc").2.2.2.1
      (SetErr.invalidValue "invalid literal") hbad
  · exact (configSet_spec demoOptStore "fit.quickfit.region" "15").2.2.2.2.1 hinv
      demoStoreAfter h1.1

/-! ## Session state: spectra, fits, work fit

The containers (spectra collection, per-spectrum fit container), the
work fit and the display operations live in collaborator modules
(`hdtv/spectrum.py`, `hdtv/fit.py`, the drawable containers) that are not
among the reviewed sources; they are modelled from the spec (sections 3
and 4.5).  The interface methods of `fitInterface.py` and
`specInterface.py` are transliterated on top of this state.
Python exceptions are modelled by `Except Err`; ui output (warnings,
info and error messages) and the calls into the display layer are
recorded in an event trace. -/

/-- Python exception kinds occurring in this layer. -/
inductive Err
  | keyError (msg : String)
  | valueError (msg : String)
  | runtimeError (msg : String)
  | attributeError
deriving DecidableEq, Repr

/-- Fitter configuration (modelled from the spec: background degree,
peak model, per-parameter status).  `validParams` is the parameter-name
list accepted by the peak model; `SetParameter` on any other name
raises ValueError. -/
structure Fitter where
  bgdeg : Int
  peakModel : String
  validParams : List String
  paramStatus : List (String × String)
deriving DecidableEq, Repr

/-- Modelled from the spec: set the status of one fitter parameter;
fails (ValueError) for a parameter the peak model does not have.  The
comma-splitting of multi-peak status strings in
`FitInterface.SetFitterParameter` only changes the shape of the stored
payload, so the raw status string is stored as given. -/
def Fitter.SetParameter (f : Fitter) (parname status : String) : Except String Fitter :=
  if parname ∈ f.validParams then
    .ok { f with paramStatus :=
      if f.paramStatus.any (fun e => e.1 = parname) then
        f.paramStatus.map (fun e => if e.1 = parname then (e.1, status) else e)
      else f.paramStatus ++ [(parname, status)] }
  else .error "invalid parameter"

/-- Modelled from the spec: reset all parameter stati to the internal
defaults. -/
def Fitter.ResetParamStatus (f : Fitter) : Fitter :=
  { f with paramStatus := [] }

/-- Modelled from the spec: select the peak model, resetting the
parameter stati. -/
def Fitter.SetPeakModel (f : Fitter) (name : String) : Fitter :=
  { f with peakModel := name, paramStatus := [] }

/-- A fit: marker positions, fitter configuration, executed flag and
decomposition display flag (modelled from the spec, section 3). -/
structure Fit where
  fitter : Fitter
  bgMarkers : List ℚ
  regionMarkers : List ℚ
  peakMarkers : List ℚ
  fitted : Bool
  showDecomp : Bool
deriving DecidableEq, Repr

/-- A spectrum: histogram name, calibration coefficients, stored-fit
container, visible set and active fit (modelled from the spec,
section 3). -/
structure Spectrum where
  name : String
  cal : List ℚ
  fits : List (ID × Fit)
  visible : List ID
  activeFit : Option ID
deriving DecidableEq, Repr

/-- Trace of the observable calls this layer makes (display layer, ui
messages, container pops). -/
inductive Event
  | clearFit
  | setMarker (mtype : String) (pos : ℚ)
  | executeFit (peaks : Bool)
  | storeFit
  | activateSpec (i : ID)
  | fitPeakFunc (sid fid : ID)
  | fitBgFunc (sid fid : ID)
  | popFit (sid : ID) (fid : ID)
  | warn
  | info
  | errorMsg
deriving DecidableEq, Repr

/-- The session: the spectra collection (ordered id-to-object mapping
with an active id), the work fit, and the event trace. -/
structure Session where
  specs : List (ID × Spectrum)
  activeID : Option ID
  workFit : Fit
  trace : List Event
deriving DecidableEq, Repr

/-- Ordered-dict lookup. -/
def dictLookup {β : Type} (d : List (ID × β)) (k : ID) : Option β :=
  match d with
  | [] => none
  | e :: es => if e.1 = k then some e.2 else dictLookup es k

/-- Ordered-dict update of an existing key (leaves the dict unchanged
when the key is absent). -/
def dictUpdate {β : Type} (d : List (ID × β)) (k : ID) (v : β) : List (ID × β) :=
  d.map (fun e => if e.1 = k then (e.1, v) else e)

/-- Ordered-dict removal. -/
def dictRemove {β : Type} (d : List (ID × β)) (k : ID) : List (ID × β) :=
  d.filter (fun e => !(e.1 = k : Bool))

/-- Free-id allocator (modelled from the spec: smallest unused
non-negative integer). -/
def GetFreeID {β : Type} (d : List (ID × β)) : ID :=
  ID.mk (((List.range (d.length + 1)).filter
            (fun n => (dictLookup d (ID.mk n none)).isNone)).headD 0) none

/-- ui warning (`hdtv.ui.warn` or a warning print). -/
def uiWarn (s : Session) : Session := { s with trace := s.trace ++ [Event.warn] }

/-- ui info message. -/
def uiInfo (s : Session) : Session := { s with trace := s.trace ++ [Event.info] }

/-- ui error message (`hdtv.ui.error`): user-visible, does not raise. -/
def uiError (s : Session) : Session := { s with trace := s.trace ++ [Event.errorMsg] }

/-- `Spectra.ActivateObject` (modelled from the spec: the active id must
exist in the mapping; a missing id raises KeyError). -/
def Session.ActivateObject (i : ID) (s : Session) : Except Err Session :=
  match dictLookup s.specs i with
  | none => .error (.keyError "no such id")
  | some _ => .ok { s with activeID := some i, trace := s.trace ++ [Event.activateSpec i] }

/-- `Spectra.GetActiveObject` (modelled from the spec). -/
def Session.GetActiveObject (s : Session) : Option Spectrum :=
  s.activeID.bind (fun i => dictLookup s.specs i)

/-- `Spectra.ClearFit` (modelled from the spec: discard the work fit's
markers, back to Idle). -/
def Session.ClearFit (s : Session) : Session :=
  { s with
    workFit := { s.workFit with
                  bgMarkers := [], regionMarkers := [], peakMarkers := [], fitted := false },
    trace := s.trace ++ [Event.clearFit] }

/-- `Spectra.SetMarker` (modelled from the spec: append a marker
position of the given type to the work fit). -/
def Session.SetMarker (mtype : String) (pos : ℚ) (s : Session) : Session :=
  { s with
    workFit :=
      if mtype = "bg" then { s.workFit with bgMarkers := s.workFit.bgMarkers ++ [pos] }
      else if mtype = "region" then
        { s.workFit with regionMarkers := s.workFit.regionMarkers ++ [pos] }
      else if mtype = "peak" then
        { s.workFit with peakMarkers := s.workFit.peakMarkers ++ [pos] }
      else s.workFit,
    trace := s.trace ++ [Event.setMarker mtype pos] }

/-- `Spectra.ExecuteFit` (modelled from the spec: Marking to Fitted; the
numerical work is the external engine's). -/
def Session.ExecuteFit (peaks : Bool) (s : Session) : Session :=
  { s with workFit := { s.workFit with fitted := true },
           trace := s.trace ++ [Event.executeFit peaks] }

/-- `Spectra.StoreFit` (modelled from the spec: copy the work fit into
the active spectrum's fit container under the next free id, clear the
work fit's markers). -/
def Session.StoreFit (s : Session) : Session :=
  match s.activeID with
  | none => s
  | some sid =>
    match dictLookup s.specs sid with
    | none => s
    | some sp =>
      let fid := GetFreeID sp.fits
      { s with
        specs := dictUpdate s.specs sid { sp with fits := sp.fits ++ [(fid, s.workFit)] },
        workFit := { s.workFit with
                      bgMarkers := [], regionMarkers := [], peakMarkers := [], fitted := false },
        trace := s.trace ++ [Event.storeFit] }

/-- The id-resolver view of the spectra collection. -/
def specContainer (s : Session) : IdContainer :=
  ⟨s.specs.map Prod.fst, s.activeID⟩

/-- The id-resolver view of one spectrum's fit container. -/
def fitContainer (sp : Spectrum) : IdContainer :=
  ⟨sp.fits.map Prod.fst, sp.activeFit⟩

/-! ## QuickFit (fitInterface.py lines 165-178) -/

/-- Transliteration of `FitInterface.QuickFit` with `pos` given (the
cursor-position default is display state outside this model);
`regionWidth` is the value of the option "fit.quickfit.region" read via
`hdtv.options.Get`. -/
def QuickFit (regionWidth : ℚ) (pos : ℚ) (s : Session) : Session :=
  let s := s.ClearFit
  let s := s.SetMarker "region" (pos - regionWidth / 2)
  let s := s.SetMarker "region" (pos + regionWidth / 2)
  let s := s.SetMarker "peak" pos
  s.ExecuteFit true

/-- Claim C4: `QuickFit pos` first clears the work fit, then places
exactly two region markers symmetric around `pos` (half the configured
region width on each side), then one peak marker exactly at `pos`, and
then executes the fit, in that order; the resulting work fit holds
exactly those markers. -/
theorem quickFit_spec (w pos : ℚ) (s : Session) :
    (QuickFit w pos s).trace
      = s.trace ++ [Event.clearFit,
          Event.setMarker "region" (pos - w / 2),
          Event.setMarker "region" (pos + w / 2),
          Event.setMarker "peak" pos,
          Event.executeFit true]
    ∧ (QuickFit w pos s).workFit.regionMarkers = [pos - w / 2, pos + w / 2]
    ∧ (QuickFit w pos s).workFit.peakMarkers = [pos]
    ∧ (QuickFit w pos s).workFit.bgMarkers = []
    ∧ (QuickFit w pos s).workFit.fitted = true
    ∧ pos - (pos - w / 2) = (pos + w / 2) - pos := by
  refine ⟨?_, ?_, ?_, ?_, ?_, by ring⟩ <;>
    simp [QuickFit, Session.ClearFit, Session.SetMarker, Session.ExecuteFit]

/-! ## ExecuteRefit (fitInterface.py lines 144-163) -/

/-- Update one stored fit of one spectrum (in-place mutation of the fit
object in the source). -/
def updateFit (s : Session) (sid fid : ID) (fit : Fit) : Session :=
  match dictLookup s.specs sid with
  | none => s
  | some sp => { s with specs := dictUpdate s.specs sid { sp with fits := dictUpdate sp.fits fid fit } }

/-- Transliteration of `FitInterface.ExecuteRefit`: look up the
spectrum (KeyError "invalid spectrum ID" if absent), look up the stored
fit (KeyError "invalid fit ID" if absent); for a peak refit run
`FitPeakFunc`, for a background-only refit first fail (RuntimeError) if
the fitter's background degree is -1, else run `FitBgFunc`.  The
external fit computations are recorded as trace events and set the
fitted flag. -/
def ExecuteRefit (specID fitID : ID) (peaks : Bool) (s : Session) : Except Err Session :=
  match dictLookup s.specs specID with
  | none => .error (.keyError "invalid spectrum ID")
  | some sp =>
    match dictLookup sp.fits fitID with
    | none => .error (.keyError "invalid fit ID")
    | some fit =>
      if peaks then
        .ok { updateFit s specID fitID { fit with fitted := true } with
              trace := s.trace ++ [Event.fitPeakFunc specID fitID] }
      else
        if fit.fitter.bgdeg = -1 then .error (.runtimeError "background degree of -1")
        else
          .ok { updateFit s specID fitID { fit with fitted := true } with
                trace := s.trace ++ [Event.fitBgFunc specID fitID] }

/-- Claim C5: `ExecuteRefit` fails with an invalid-id KeyError when the
spectrum id or the fit id is absent, fails with the background-degree
RuntimeError when a background-only refit is requested on a fit whose
fitter has background degree -1, and otherwise re-runs the stored fit's
peak-fit or background-only computation. -/
theorem executeRefit_spec (specID fitID : ID) (peaks : Bool) (s : Session) :
    (dictLookup s.specs specID = none →
      ExecuteRefit specID fitID peaks s = .error (.keyError "invalid spectrum ID"))
    ∧ (∀ sp, dictLookup s.specs specID = some sp → dictLookup sp.fits fitID = none →
      ExecuteRefit specID fitID peaks s = .error (.keyError "invalid fit ID"))
    ∧ (∀ sp fit, dictLookup s.specs specID = some sp → dictLookup sp.fits fitID = some fit →
        peaks = false → fit.fitter.bgdeg = -1 →
      ExecuteRefit specID fitID peaks s = .error (.runtimeError "background degree of -1"))
    ∧ (∀ sp fit, dictLookup s.specs specID = some sp → dictLookup sp.fits fitID = some fit →
        peaks = true →
      ExecuteRefit specID fitID peaks s
        = .ok { updateFit s specID fitID { fit with fitted := true } with
                trace := s.trace ++ [Event.fitPeakFunc specID fitID] })
    ∧ (∀ sp fit, dictLookup s.specs specID = some sp → dictLookup sp.fits fitID = some fit →
        peaks = false → fit.fitter.bgdeg ≠ -1 →
      ExecuteRefit specID fitID peaks s
        = .ok { updateFit s specID fitID { fit with fitted := true } with
                trace := s.trace ++ [Event.fitBgFunc specID fitID] }) := by
  refine ⟨?_, ?_, ?_, ?_, ?_⟩
  · intro h
    simp [ExecuteRefit, h]
  · intro sp hsp hf
    simp [ExecuteRefit, hsp, hf]
  · intro sp fit hsp hf hp hbg
    simp [ExecuteRefit, hsp, hf, hp, hbg]
  · intro sp fit hsp hf hp
    simp [ExecuteRefit, hsp, hf, hp]
  · intro sp fit hsp hf hp hbg
    simp [ExecuteRefit, hsp, hf, hp, hbg]

/-- Shared concrete session for witnesses: one spectrum (id 0, active)
holding stored fit 0 (background degree 2) and stored fit 1
(background degree -1). -/
def demoFitter : Fitter :=
  { bgdeg := 2, peakModel := "theuerkauf", validParams := ["pos", "width"], paramStatus := [] }

def demoFitterNoBg : Fitter := { demoFitter with bgdeg := -1 }

def demoFit : Fit :=
  { fitter := demoFitter, bgMarkers := [], regionMarkers := [], peakMarkers := [],
    fitted := true, showDecomp := false }

def demoFitNoBg : Fit := { demoFit with fitter := demoFitterNoBg }

def demoSpec : Spectrum :=
  { name := "spec1", cal := [],
    fits := [(⟨0, none⟩, demoFit), (⟨1, none⟩, demoFitNoBg)],
    visible := [], activeFit := none }

def demoSession : Session :=
  { specs := [(⟨0, none⟩, demoSpec)], activeID := some ⟨0, none⟩,
    workFit := { demoFit with fitted := false }, trace := [] }

/-- Witness for C5: the three failure modes and both success modes at
concrete inputs. -/
theorem executeRefit_spec_witness :
    ExecuteRefit ⟨9, none⟩ ⟨0, none⟩ true demoSession = .error (.keyError "invalid spectrum ID")
    ∧ ExecuteRefit ⟨0, none⟩ ⟨5, none⟩ true demoSession = .error (.keyError "invalid fit ID")
    ∧ ExecuteRefit ⟨0, none⟩ ⟨1, none⟩ false demoSession
        = .error (.runtimeError "background degree of -1")
    ∧ (ExecuteRefit ⟨0, none⟩ ⟨0, none⟩ true demoSession).isOk = true
    ∧ (ExecuteRefit ⟨0, none⟩ ⟨0, none⟩ false demoSession).isOk = true := by
  refine ⟨?_, ?_, ?_, ?_, ?_⟩
  · exact (executeRefit_spec ⟨9, none⟩ ⟨0, none⟩ true demoSession).1 rfl
  · exact (executeRefit_spec ⟨0, none⟩ ⟨5, none⟩ true demoSession).2.1 demoSpec rfl rfl
  · exact (executeRefit_spec ⟨0, none⟩ ⟨1, none⟩ false demoSession).2.2.1 demoSpec demoFitNoBg
      rfl rfl rfl rfl
  · rw [(executeRefit_spec ⟨0, none⟩ ⟨0, none⟩ true demoSession).2.2.2.1 demoSpec demoFit
      rfl rfl rfl]
    rfl
  · rw [(executeRefit_spec ⟨0, none⟩ ⟨0, none⟩ false demoSession).2.2.2.2 demoSpec demoFit
      rfl rfl rfl (by decide)]
    rfl

/-! ## Parameter-status operations (fitInterface.py lines 284-373) -/

/-- Transliteration of `FitInterface.SetFitterParameter`: apply to the
work fit, surfacing a fitter ValueError as a ui error message; for a
non-empty id list fetch the active spectrum (with no active spectrum the
loop's attribute access on None raises AttributeError) and apply to each
listed stored fit, where a missing id (KeyError) is caught and silently
skipped while a fitter ValueError is not caught and propagates. -/
def SetFitterParameter (parname status : String) (ids : List ID) (s : Session) :
    Except Err Session :=
  let s :=
    match s.workFit.fitter.SetParameter parname status with
    | .ok f => { s with workFit := { s.workFit with fitter := f } }
    | .error _ => uiError s
  if ids = [] then .ok s
  else
    match s.activeID with
    | none => .error .attributeError
    | some sid =>
      match dictLookup s.specs sid with
      | none => .error .attributeError
      | some _ =>
        ids.foldlM (fun s i =>
          match dictLookup s.specs sid with
          | none => .ok s
          | some sp =>
            match dictLookup sp.fits i with
            | none => .ok s
            | some fit =>
              match fit.fitter.SetParameter parname status with
              | .error m => .error (.valueError m)
              | .ok f => .ok (updateFit s sid i { fit with fitter := f })) s

/-- Transliteration of `FitInterface.ResetFitterParameters`: reset the
work fit's fitter; for a non-empty id list loop over the listed stored
fits with no exception handler, so a missing id raises KeyError out of
the loop. -/
def ResetFitterParameters (ids : List ID) (s : Session) : Except Err Session :=
  let s := { s with workFit := { s.workFit with fitter := s.workFit.fitter.ResetParamStatus } }
  if ids = [] then .ok s
  else
    match s.activeID with
    | none => .error .attributeError
    | some sid =>
      match dictLookup s.specs sid with
      | none => .error .attributeError
      | some _ =>
        ids.foldlM (fun s i =>
          match dictLookup s.specs sid with
          | none => .ok s
          | some sp =>
            match dictLookup sp.fits i with
            | none => .error (.keyError "no such id")
            | some fit =>
              .ok (updateFit s sid i { fit with fitter := fit.fitter.ResetParamStatus })) s

/-- Transliteration of `FitInterface.SetPeakModel`: set the work fit's
peak model; for a non-empty id list loop over the listed stored fits
with no exception handler, so a missing id raises KeyError out of the
loop (contrary to the method's own docstring). -/
def SetPeakModel (peakmodel : String) (ids : List ID) (s : Session) : Except Err Session :=
  let s := { s with workFit := { s.workFit with fitter := s.workFit.fitter.SetPeakModel peakmodel } }
  if ids = [] then .ok s
  else
    match s.activeID with
    | none => .error .attributeError
    | some sid =>
      match dictLookup s.specs sid with
      | none => .error .attributeError
      | some _ =>
        ids.foldlM (fun s i =>
          match dictLookup s.specs sid with
          | none => .ok s
          | some sp =>
            match dictLookup sp.fits i with
            | none => .error (.keyError "no such id")
            | some fit =>
              .ok (updateFit s sid i { fit with fitter := fit.fitter.SetPeakModel peakmodel })) s

/-- Claim C3, settled against the code at a concrete failing input:
with the active spectrum holding only fits 0 and 1, the id list [7, 0]
(7 absent) makes `SetFitterParameter` skip 7 and still process 0
(best-effort, as claimed), but `ResetFitterParameters` and
`SetPeakModel` raise the KeyError out of the bulk loop, so the absent
id is not swallowed and the remaining ids are not processed; a failure
against the work fit itself is surfaced as a ui error without an
exception. -/
theorem fitterParam_bulk_divergence :
    (SetFitterParameter "pos" "free" [⟨7, none⟩, ⟨0, none⟩] demoSession).isOk = true
    ∧ ResetFitterParameters [⟨7, none⟩, ⟨0, none⟩] demoSession
        = .error (Err.keyError "no such id")
    ∧ SetPeakModel "ee" [⟨7, none⟩, ⟨0, none⟩] demoSession
        = .error (Err.keyError "no such id")
    ∧ SetFitterParameter "bogus" "free" [] demoSession = .ok (uiError demoSession) := by
  refine ⟨rfl, rfl, rfl, rfl⟩

/-! ## FitExecute (fitInterface.py lines 688-729) -/

/-- Arguments of the "fit execute" command after option parsing. -/
structure FitExecuteArgs where
  spectrum : String
  background : Bool
  quick : Option ℚ
  store : Bool
  fitids : String
deriving Repr

/-- Transliteration of `TvFitInterface.FitExecute`: resolve the spectrum
ids (warn and return if none), remember the active spectrum id, then for
each selected spectrum activate it, resolve the fit ids, run a quick fit
or a work-fit execution (optionally storing) when no fit ids are given,
re-run each listed stored fit with KeyError/RuntimeError warned and
swallowed, and finally re-activate the initially active spectrum.
`regionWidth` is the "fit.quickfit.region" option value consumed by
`QuickFit`; plain ui.msg output is not traced. -/
def FitExecute (args : FitExecuteArgs) (regionWidth : ℚ) (s : Session) : Except Err Session :=
  match ParseIds args.spectrum (specContainer s) true with
  | none => .error (.valueError "invalid identifier")
  | some specIDs =>
    if specIDs = [] then .ok (uiWarn s)
    else
      let doPeaks := !args.background
      let oldActiveID := s.activeID
      (specIDs.foldlM (fun s specID =>
        match Session.ActivateObject specID s with
        | .error e => Except.error e
        | .ok s =>
          match dictLookup s.specs specID with
          | none => Except.error (Err.keyError "no such id")
          | some sp =>
            match ParseIds args.fitids (fitContainer sp) true with
            | none => Except.error (Err.valueError "invalid identifier")
            | some fitIDs =>
              let s :=
                if fitIDs = [] then
                  let s :=
                    match args.quick with
                    | some q => QuickFit regionWidth q s
                    | none => Session.ExecuteFit doPeaks s
                  if args.store then Session.StoreFit s else s
                else s
              fitIDs.foldlM (fun s fitID =>
                match ExecuteRefit specID fitID doPeaks s with
                | .ok s2 => Except.ok s2
                | .error (.keyError _) => Except.ok (uiWarn s)
                | .error (.runtimeError _) => Except.ok (uiWarn s)
                | .error e => Except.error e) s) s) >>= (fun s2 =>
        match oldActiveID with
        | some a => Session.ActivateObject a s2
        | none => .ok s2)

lemma except_bind_ok {ε α β : Type} (x : Except ε α) (f : α → Except ε β) (b : β)
    (h : x >>= f = .ok b) : ∃ a, x = .ok a ∧ f a = .ok b := by
  cases x with
  | error e => simp [Bind.bind, Except.bind] at h
  | ok a => exact ⟨a, rfl, by simpa [Bind.bind, Except.bind] using h⟩

lemma activateObject_ok_activeID (i : ID) (s s2 : Session)
    (h : Session.ActivateObject i s = .ok s2) : s2.activeID = some i := by
  unfold Session.ActivateObject at h
  cases hd : dictLookup s.specs i with
  | none => rw [hd] at h; cases h
  | some sp => rw [hd] at h; cases h; rfl

/-- Claim C9: whenever the "fit execute" handler starts with a non-None
active spectrum id and completes without an exception, the active
spectrum id afterwards equals the id that was active before, even
though the handler activates each selected spectrum in turn. -/
theorem fitExecute_restores_active (args : FitExecuteArgs) (w : ℚ) (s s2 : Session) (a : ID)
    (hact : s.activeID = some a) (hok : FitExecute args w s = .ok s2) :
    s2.activeID = some a := by
  unfold FitExecute at hok
  cases hp : ParseIds args.spectrum (specContainer s) true with
  | none => rw [hp] at hok; cases hok
  | some specIDs =>
    rw [hp] at hok
    dsimp only at hok
    by_cases hs : specIDs = []
    · rw [if_pos hs] at hok
      cases hok
      simpa [uiWarn] using hact
    · rw [if_neg hs, hact] at hok
      obtain ⟨smid, _, hfin⟩ := except_bind_ok _ _ _ hok
      exact activateObject_ok_activeID a smid s2 hfin

def demoFitExecArgs : FitExecuteArgs := ⟨"0", false, none, false, "none"⟩

/-- Witness for C9 at a concrete completed run. -/
theorem fitExecute_restores_active_witness :
    (FitExecute demoFitExecArgs 20 demoSession).map (fun s2 => s2.activeID)
      = .ok (some ⟨0, none⟩) := by
  cases hres : FitExecute demoFitExecArgs 20 demoSession with
  | error e =>
    have hh : (FitExecute demoFitExecArgs 20 demoSession).isOk = true := rfl
    rw [hres] at hh
    cases hh
  | ok s2 =>
    have h2 := fitExecute_restores_active demoFitExecArgs 20 demoSession s2 ⟨0, none⟩ rfl hres
    simp [Except.map, h2]

/-! ## LoadSpectra (specInterface.py lines 88-122) -/

/-- The format-suffix separator character of file specs. -/
def fmtSep : Char := Char.ofNat 39

/-- File-spec splitting from `LoadSpectra`: rsplit at the last
separator; a missing or empty format suffix means no format. -/
def parseFileSpec (f : String) : String × Option String :=
  let segs := splitList (fun c => c = fmtSep) f.toList
  match segs.reverse with
  | [] => (f, none)
  | [_] => (f, none)
  | last :: front =>
    let fname := String.mk (List.intercalate [fmtSep] front.reverse)
    match last with
    | [] => (fname, none)
    | t => (fname, some (String.mk t))

/-- The filesystem collaborators of `LoadSpectra`: `os.path.expanduser`,
`glob.glob` and the `FileSpectrum` constructor, whose read failures
(OSError, SpecReaderError -- exactly the kinds the source catches) are
its error case. -/
structure FsEnv where
  expanduser : String → String
  glob : String → List String
  readSpec : String → Option String → Except Unit Spectrum

/-- One file of the `LoadSpectra` loop body: construct the spectrum
(on a read failure print a warning and continue), else assign the next
free id, store the spectrum under it (color assignment is display-only),
activate it and record it as loaded. -/
def loadOneFile (env : FsEnv) (fmt : Option String) (acc : Session × List ID) (fname : String) :
    Session × List ID :=
  let (s, loaded) := acc
  match env.readSpec fname fmt with
  | .error _ => (uiWarn s, loaded)
  | .ok spec =>
    let i := GetFreeID s.specs
    let s := { s with specs := s.specs ++ [(i, spec)] }
    let s := { s with activeID := some i, trace := s.trace ++ [Event.activateSpec i] }
    (s, loaded ++ [i])

/-- Transliteration of `SpecInterface.LoadSpectra` (the viewport
lock/unlock pair and `window.Expand` are display-only): for each file
spec split off the format suffix, expand the user path and glob it, and
load every resulting file. -/
def loadFold (env : FsEnv) (files : List String) (acc : Session × List ID) :
    Session × List ID :=
  files.foldl
    (fun acc f =>
      let pf := parseFileSpec f
      (env.glob (env.expanduser pf.1)).foldl (loadOneFile env pf.2) acc)
    acc

def LoadSpectra (env : FsEnv) (files : List String) (s : Session) : Session × List ID :=
  loadFold env files (s, [])

/-- Does this file spec fail to load (its resolved path fails to read)? -/
def specFails (env : FsEnv) (f : String) : Bool :=
  let pf := parseFileSpec f
  (env.glob (env.expanduser pf.1)).any (fun p => !(env.readSpec p pf.2).isOk)

/-- Number of warning messages in the trace. -/
def warnCount (s : Session) : Nat := s.trace.count Event.warn

lemma dictLookup_append_of_isSome {β : Type} (d e : List (ID × β)) (i : ID)
    (h : (dictLookup d i).isSome) : dictLookup (d ++ e) i = dictLookup d i := by
  induction d with
  | nil => simp [dictLookup] at h
  | cons x xs ih =>
    by_cases hx : x.1 = i
    · simp [dictLookup, hx]
    · simp only [dictLookup, if_neg hx] at h ⊢
      exact ih h

lemma dictLookup_append_of_none {β : Type} (d e : List (ID × β)) (i : ID)
    (h : dictLookup d i = none) : dictLookup (d ++ e) i = dictLookup e i := by
  induction d with
  | nil => simp
  | cons x xs ih =>
    by_cases hx : x.1 = i
    · simp [dictLookup, hx] at h
    · simp only [dictLookup, if_neg hx] at h
      rw [List.cons_append]
      simp only [dictLookup, if_neg hx]
      exact ih h

lemma dictLookup_none_of_major_notmem {β : Type} (d : List (ID × β)) (n : Nat)
    (h : ∀ e ∈ d, e.1.major ≠ n) : dictLookup d (ID.mk n none) = none := by
  induction d with
  | nil => rfl
  | cons x xs ih =>
    have hx : x.1 ≠ ID.mk n none := by
      intro hc
      exact (h x (by simp)) (by rw [hc])
    simp only [dictLookup, if_neg hx]
    exact ih (fun e he => h e (by simp [he]))

lemma getFreeID_fresh {β : Type} (d : List (ID × β)) :
    dictLookup d (GetFreeID d) = none := by
  classical
  have hcard : ((d.map (fun e => e.1.major)).toFinset).card < (Finset.range (d.length + 1)).card := by
    calc ((d.map (fun e => e.1.major)).toFinset).card
        ≤ (d.map (fun e => e.1.major)).length := (d.map (fun e => e.1.major)).toFinset_card_le
      _ = d.length := by simp
      _ < d.length + 1 := Nat.lt_succ_self _
      _ = (Finset.range (d.length + 1)).card := by simp
  have hns : ¬ (Finset.range (d.length + 1)
      ⊆ (d.map (fun e => e.1.major)).toFinset) := by
    intro hsub
    exact absurd (Finset.card_le_card hsub) (by omega)
  obtain ⟨n, hnt, hnk⟩ := Finset.not_subset.mp hns
  have hfree : dictLookup d (ID.mk n none) = none := by
    refine dictLookup_none_of_major_notmem d n (fun e he hc => hnk ?_)
    rw [List.mem_toFinset]
    exact List.mem_map.2 ⟨e, he, hc⟩
  have hmem : n ∈ (List.range (d.length + 1)).filter
      (fun n => (dictLookup d (ID.mk n none)).isNone) := by
    refine List.mem_filter.2 ⟨List.mem_range.2 (Finset.mem_range.1 hnt), ?_⟩
    simp [hfree]
  have hne := List.ne_nil_of_mem hmem
  set l := (List.range (d.length + 1)).filter
      (fun n => (dictLookup d (ID.mk n none)).isNone) with hl
  have hh : l.headD 0 ∈ l := by
    cases hcl : l with
    | nil => exact absurd hcl hne
    | cons a t => simp
  have := (List.mem_filter.1 hh).2
  simpa [GetFreeID, ← hl, Option.isNone_iff_eq_none] using this

lemma loadFold_inv (env : FsEnv) (files : List String) :
    ∀ (s : Session) (loaded : List ID),
      (∀ f ∈ files, (env.glob (env.expanduser (parseFileSpec f).1)).length = 1) →
      ∃ new : List ID,
        (loadFold env files (s, loaded)).2 = loaded ++ new
        ∧ new.length = files.length - files.countP (specFails env)
        ∧ warnCount (loadFold env files (s, loaded)).1
            = warnCount s + files.countP (specFails env)
        ∧ (∀ i, (dictLookup s.specs i).isSome = true →
             (dictLookup (loadFold env files (s, loaded)).1.specs i).isSome = true)
        ∧ new.Nodup
        ∧ (∀ i ∈ new,
             (dictLookup (loadFold env files (s, loaded)).1.specs i).isSome = true
             ∧ dictLookup s.specs i = none) := by
  induction files with
  | nil =>
    intro s loaded _
    refine ⟨[], by simp [loadFold], by simp [loadFold], by simp [loadFold],
      fun i h => by simpa [loadFold] using h, List.nodup_nil, by simp⟩
  | cons f fs ih =>
    intro s loaded hglob
    obtain ⟨p, hp⟩ : ∃ p, env.glob (env.expanduser (parseFileSpec f).1) = [p] := by
      have h1 := hglob f (by simp)
      cases hg : env.glob (env.expanduser (parseFileSpec f).1) with
      | nil => rw [hg] at h1; simp at h1
      | cons a t =>
        rw [hg] at h1
        simp at h1
        exact ⟨a, by rw [h1]⟩
    have hstep : loadFold env (f :: fs) (s, loaded)
        = loadFold env fs (loadOneFile env (parseFileSpec f).2 (s, loaded) p) := by
      simp [loadFold, hp]
    have hglob2 : ∀ g ∈ fs, (env.glob (env.expanduser (parseFileSpec g).1)).length = 1 :=
      fun g hg => hglob g (by simp [hg])
    have hcle := List.countP_le_length (p := specFails env) (l := fs)
    cases hr : env.readSpec p (parseFileSpec f).2 with
    | error u =>
      have hfail : specFails env f = true := by
        simp [specFails, hp, hr, Except.isOk, Except.toBool]
      have hone : loadOneFile env (parseFileSpec f).2 (s, loaded) p = (uiWarn s, loaded) := by
        simp [loadOneFile, hr]
      obtain ⟨new, h1, h2, h3, h4, h5, h6⟩ := ih (uiWarn s) loaded hglob2
      rw [hstep, hone]
      refine ⟨new, h1, ?_, ?_, ?_, h5, ?_⟩
      · rw [h2, List.countP_cons]
        simp [hfail]
        try omega
      · rw [h3]
        have hw : warnCount (uiWarn s) = warnCount s + 1 := by
          simp [warnCount, uiWarn]
        rw [hw, List.countP_cons]
        simp [hfail]
        try omega
      · intro i hi
        exact h4 i (by simpa [uiWarn] using hi)
      · intro i hi
        obtain ⟨ha, hb⟩ := h6 i hi
        exact ⟨ha, by simpa [uiWarn] using hb⟩
    | ok spec =>
      have hnofail : specFails env f = false := by
        simp [specFails, hp, hr, Except.isOk, Except.toBool]
      set i0 : ID := GetFreeID s.specs with hi0
      set s1 : Session :=
        { s with specs := s.specs ++ [(i0, spec)],
                 activeID := some i0,
                 trace := s.trace ++ [Event.activateSpec i0] } with hs1
      have hone : loadOneFile env (parseFileSpec f).2 (s, loaded) p = (s1, loaded ++ [i0]) := by
        simp [loadOneFile, hr, hs1]
      have hfresh : dictLookup s.specs i0 = none := getFreeID_fresh s.specs
      have hself : (dictLookup s1.specs i0).isSome = true := by
        rw [hs1]
        simp only
        rw [dictLookup_append_of_none _ _ _ hfresh]
        simp [dictLookup]
      have hmono1 : ∀ j, (dictLookup s.specs j).isSome = true →
          (dictLookup s1.specs j).isSome = true := by
        intro j hj
        rw [hs1]
        simp only
        rw [dictLookup_append_of_isSome _ _ _ hj]
        exact hj
      have hnone1 : ∀ j, dictLookup s1.specs j = none → dictLookup s.specs j = none := by
        intro j hj
        cases hcl : dictLookup s.specs j with
        | none => rfl
        | some v =>
          have hiso : (dictLookup s.specs j).isSome = true := by simp [hcl]
          have h2 := hmono1 j hiso
          rw [hj] at h2
          cases h2
      obtain ⟨new, h1, h2, h3, h4, h5, h6⟩ := ih s1 (loaded ++ [i0]) hglob2
      rw [hstep, hone]
      refine ⟨i0 :: new, ?_, ?_, ?_, ?_, ?_, ?_⟩
      · rw [h1, List.append_assoc]
        rfl
      · simp only [List.length_cons, h2, List.countP_cons, hnofail]
        simp
        try omega
      · rw [h3, List.countP_cons]
        have hw : warnCount s1 = warnCount s := by
          simp [warnCount, hs1]
        rw [hw]
        simp [hnofail]
      · intro i hi
        exact h4 i (hmono1 i hi)
      · rw [List.nodup_cons]
        refine ⟨fun hmem => ?_, h5⟩
        have hn := (h6 _ hmem).2
        rw [hn] at hself
        cases hself
      · intro i hi
        rcases List.mem_cons.1 hi with hi0eq | hmem
        · subst hi0eq
          exact ⟨h4 _ hself, hfresh⟩
        · obtain ⟨ha, hb⟩ := h6 i hmem
          exact ⟨ha, hnone1 i hb⟩

/-- Claim C1: loading a batch of N file specs (each resolving to one
file) of which M fail to open returns a duplicate-free list of exactly
N-M spectrum ids, all present in the spectra collection afterwards, and
emits exactly one warning per failed file; the batch call is total (the
source catches exactly the read-failure exception kinds, so no
exception escapes). -/
theorem loadSpectra_spec (env : FsEnv) (files : List String) (s : Session)
    (hglob : ∀ f ∈ files, (env.glob (env.expanduser (parseFileSpec f).1)).length = 1) :
    (LoadSpectra env files s).2.length = files.length - files.countP (specFails env)
    ∧ warnCount (LoadSpectra env files s).1 = warnCount s + files.countP (specFails env)
    ∧ (LoadSpectra env files s).2.Nodup
    ∧ (∀ i ∈ (LoadSpectra env files s).2,
        (dictLookup (LoadSpectra env files s).1.specs i).isSome = true) := by
  obtain ⟨new, h1, h2, h3, h4, h5, h6⟩ := loadFold_inv env files s [] hglob
  unfold LoadSpectra
  refine ⟨?_, h3, ?_, ?_⟩
  · rw [h1]
    simpa using h2
  · rw [h1]
    simpa using h5
  · intro i hi
    rw [h1] at hi
    simp only [List.nil_append] at hi
    exact (h6 i hi).1

/-- Environment for the C1 witness: every path globs to itself; the
file "bad" fails to read. -/
def demoFsEnv : FsEnv :=
  { expanduser := fun p => p,
    glob := fun p => [p],
    readSpec := fun p _ =>
      if p = "bad" then .error ()
      else .ok { name := p, cal := [], fits := [], visible := [], activeFit := none } }

/-- Witness for C1: three file specs, one of which fails. -/
theorem loadSpectra_spec_witness :
    (LoadSpectra demoFsEnv ["a", "bad", "b"] demoSession).2.length = 2
    ∧ warnCount (LoadSpectra demoFsEnv ["a", "bad", "b"] demoSession).1 = 1
    ∧ (LoadSpectra demoFsEnv ["a", "bad", "b"] demoSession).2.Nodup := by
  have h := loadSpectra_spec demoFsEnv ["a", "bad", "b"] demoSession (by decide)
  refine ⟨?_, ?_, h.2.2.1⟩
  · rw [h.1]
    decide
  · rw [h.2.1]
    decide

/-! ## FitDelete (fitInterface.py lines 767-793) -/

/-- Remove one stored fit (`spec.Pop`): the pop call is traced; a
present key is removed from the container. -/
def specPop (s : Session) (sid : ID) (fid : ID) : Session :=
  let s := { s with trace := s.trace ++ [Event.popFit sid fid] }
  match dictLookup s.specs sid with
  | none => s
  | some sp => { s with specs := dictUpdate s.specs sid { sp with fits := dictRemove sp.fits fid } }

/-- One iteration of the `TvFitInterface.FitDelete` fit loop: an id with
a minor part is warned about, converted to a whole-fit id and its major
recorded in `already_removed`, and every major already recorded is
skipped; then the fit is popped. -/
def fitDeleteStep (sid : ID) (acc : Session × List Nat) (fitid : ID) : Session × List Nat :=
  let (s, alreadyRemoved) := acc
  match fitid.minor with
  | some _ =>
    if fitid.major ∈ alreadyRemoved then (s, alreadyRemoved)
    else
      (specPop (uiWarn s) sid (ID.mk fitid.major none), alreadyRemoved ++ [fitid.major])
  | none => (specPop s sid fitid, alreadyRemoved)

/-- The per-spectrum fit loop of `TvFitInterface.FitDelete`. -/
def fitDeleteLoop (sid : ID) (fitids : List ID) (s : Session) : Session :=
  (fitids.foldl (fitDeleteStep sid) (s, [])).1

/-- Arguments of the "fit delete" command after option parsing. -/
structure FitDeleteArgs where
  spectrum : String
  fitids : String
deriving Repr

/-- Transliteration of `TvFitInterface.FitDelete`: resolve the spectrum
ids (warn and return if none), and for each chosen spectrum resolve the
fit ids (with `only_existent=False`) and run the delete loop. -/
def FitDelete (args : FitDeleteArgs) (s : Session) : Except Err Session :=
  match ParseIds args.spectrum (specContainer s) true with
  | none => .error (.valueError "invalid identifier")
  | some sids =>
    if sids = [] then .ok (uiWarn s)
    else
      sids.foldlM (fun s sid =>
        match dictLookup s.specs sid with
        | none => Except.error (Err.keyError "no such id")
        | some sp =>
          match ParseIds args.fitids (fitContainer sp) false with
          | none => Except.error (Err.valueError "invalid identifier")
          | some fitids => Except.ok (fitDeleteLoop sid fitids s)) s

/-- The fit ids popped in an event-trace segment. -/
def popsOf (tr : List Event) : List ID :=
  tr.filterMap (fun ev => match ev with | .popFit _ k => some k | _ => none)

lemma specPop_trace (s : Session) (sid k : ID) :
    (specPop s sid k).trace = s.trace ++ [Event.popFit sid k] := by
  cases hd : dictLookup s.specs sid with
  | none => simp [specPop, hd]
  | some sp => simp [specPop, hd]

lemma popsOf_append (a b : List Event) : popsOf (a ++ b) = popsOf a ++ popsOf b := by
  simp [popsOf]

lemma fitDeleteStep_fold_trace (sid : ID) (fitids : List ID) :
    ∀ (s : Session) (already : List Nat),
      ∃ Δ : List Event,
        (fitids.foldl (fitDeleteStep sid) (s, already)).1.trace = s.trace ++ Δ
        ∧ (∀ k ∈ popsOf Δ, k.minor = none) := by
  induction fitids with
  | nil => intro s already; exact ⟨[], by simp, by simp [popsOf]⟩
  | cons i is ih =>
    intro s already
    cases hm : i.minor with
    | none =>
      obtain ⟨Δ, h1, h2⟩ := ih (specPop s sid i) already
      refine ⟨[Event.popFit sid i] ++ Δ, ?_, ?_⟩
      · rw [List.foldl_cons]
        show ((is.foldl (fitDeleteStep sid) (fitDeleteStep sid (s, already) i))).1.trace = _
        rw [show fitDeleteStep sid (s, already) i = (specPop s sid i, already) by
              simp [fitDeleteStep, hm]]
        rw [h1, specPop_trace, List.append_assoc]
      · intro k hk
        rw [popsOf_append] at hk
        rcases List.mem_append.1 hk with hk | hk
        · simp [popsOf] at hk
          rw [hk]
          exact hm
        · exact h2 k hk
    | some mi =>
      by_cases hmem : i.major ∈ already
      · obtain ⟨Δ, h1, h2⟩ := ih s already
        refine ⟨Δ, ?_, h2⟩
        rw [List.foldl_cons]
        rw [show fitDeleteStep sid (s, already) i = (s, already) by
              simp [fitDeleteStep, hm, hmem]]
        exact h1
      · obtain ⟨Δ, h1, h2⟩ := ih (specPop (uiWarn s) sid (ID.mk i.major none))
          (already ++ [i.major])
        refine ⟨[Event.warn, Event.popFit sid (ID.mk i.major none)] ++ Δ, ?_, ?_⟩
        · rw [List.foldl_cons]
          rw [show fitDeleteStep sid (s, already) i
                = (specPop (uiWarn s) sid (ID.mk i.major none), already ++ [i.major]) by
                simp [fitDeleteStep, hm, hmem]]
          rw [h1, specPop_trace]
          simp [uiWarn]
        · intro k hk
          rw [popsOf_append] at hk
          rcases List.mem_append.1 hk with hk | hk
          · simp [popsOf] at hk
            rw [hk]
          · exact h2 k hk

lemma fitDeleteStep_fold_minor (sid : ID) (fitids : List ID) :
    ∀ (s : Session) (already : List Nat),
      (∀ i ∈ fitids, i.minor ≠ none) →
      ∃ Δ : List Event,
        (fitids.foldl (fitDeleteStep sid) (s, already)).1.trace = s.trace ++ Δ
        ∧ ((popsOf Δ).map ID.major).Nodup
        ∧ (∀ k ∈ popsOf Δ, k.minor = none ∧ k.major ∉ already)
        ∧ Δ.count Event.warn = (popsOf Δ).length
        ∧ (∀ m : Nat, m ∈ (fitids.foldl (fitDeleteStep sid) (s, already)).2
            ↔ (m ∈ already ∨ m ∈ (popsOf Δ).map ID.major)) := by
  induction fitids with
  | nil =>
    intro s already _
    exact ⟨[], by simp, by simp [popsOf], by simp [popsOf], by simp [popsOf],
      by intro m; simp [popsOf]⟩
  | cons i is ih =>
    intro s already hmin
    have hmin2 : ∀ j ∈ is, j.minor ≠ none := fun j hj => hmin j (by simp [hj])
    cases hm : i.minor with
    | none => exact absurd hm (hmin i (by simp))
    | some mi =>
      by_cases hmem : i.major ∈ already
      · obtain ⟨Δ, h1, h2, h3, h4, h5⟩ := ih s already hmin2
        refine ⟨Δ, ?_, h2, h3, h4, ?_⟩
        · rw [List.foldl_cons,
            show fitDeleteStep sid (s, already) i = (s, already) by
              simp [fitDeleteStep, hm, hmem]]
          exact h1
        · intro m
          rw [List.foldl_cons,
            show fitDeleteStep sid (s, already) i = (s, already) by
              simp [fitDeleteStep, hm, hmem]]
          exact h5 m
      · obtain ⟨Δ, h1, h2, h3, h4, h5⟩ :=
          ih (specPop (uiWarn s) sid (ID.mk i.major none)) (already ++ [i.major]) hmin2
        have hstep : fitDeleteStep sid (s, already) i
            = (specPop (uiWarn s) sid (ID.mk i.major none), already ++ [i.major]) := by
          simp [fitDeleteStep, hm, hmem]
        refine ⟨[Event.warn, Event.popFit sid (ID.mk i.major none)] ++ Δ, ?_, ?_, ?_, ?_, ?_⟩
        · rw [List.foldl_cons, hstep, h1, specPop_trace]
          simp [uiWarn]
        · rw [popsOf_append]
          have hpops1 : popsOf [Event.warn, Event.popFit sid (ID.mk i.major none)]
              = [ID.mk i.major none] := by simp [popsOf]
          rw [hpops1]
          simp only [List.map_append, List.map_cons, List.map_nil]
          rw [List.singleton_append, List.nodup_cons]
          refine ⟨fun hc => ?_, h2⟩
          simp only [List.mem_map] at hc
          obtain ⟨k, hk, hkm⟩ := hc
          have := (h3 k hk).2
          simp only [List.mem_append, List.mem_singleton] at this
          exact this (Or.inr hkm)
        · rw [popsOf_append]
          intro k hk
          rcases List.mem_append.1 hk with hk | hk
          · simp [popsOf] at hk
            rw [hk]
            exact ⟨rfl, hmem⟩
          · obtain ⟨hk1, hk2⟩ := h3 k hk
            refine ⟨hk1, fun hc => hk2 (by simp [hc])⟩
        · rw [popsOf_append]
          have hpops1 : popsOf [Event.warn, Event.popFit sid (ID.mk i.major none)]
              = [ID.mk i.major none] := by simp [popsOf]
          rw [hpops1]
          simp only [List.count_append, List.length_append, List.length_singleton]
          have hc1 : List.count Event.warn
              [Event.warn, Event.popFit sid (ID.mk i.major none)] = 1 := by simp
          rw [hc1, h4]
        · intro m
          rw [List.foldl_cons, hstep]
          rw [h5 m, popsOf_append]
          have hpops1 : popsOf [Event.warn, Event.popFit sid (ID.mk i.major none)]
              = [ID.mk i.major none] := by simp [popsOf]
          rw [hpops1]
          simp only [List.mem_append, List.mem_singleton, List.map_append, List.map_cons,
            List.map_nil, List.mem_map]
          constructor
          · rintro (⟨h | h⟩ | h)
            · exact Or.inl h
            · exact Or.inr (Or.inl h)
            · right; right; exact h
          · rintro (h | h | h)
            · exact Or.inl (Or.inl h)
            · exact Or.inl (Or.inr h)
            · right; exact h

lemma fitDelete_sids_trace (args : FitDeleteArgs) (sids : List ID) :
    ∀ (s s2 : Session),
      sids.foldlM (fun s sid =>
        match dictLookup s.specs sid with
        | none => Except.error (Err.keyError "no such id")
        | some sp =>
          match ParseIds args.fitids (fitContainer sp) false with
          | none => Except.error (Err.valueError "invalid identifier")
          | some fitids => Except.ok (fitDeleteLoop sid fitids s)) s = .ok s2 →
      ∃ Δ : List Event, s2.trace = s.trace ++ Δ ∧ ∀ k ∈ popsOf Δ, k.minor = none := by
  induction sids with
  | nil =>
    intro s s2 h
    simp only [List.foldlM_nil] at h
    cases h
    exact ⟨[], by simp, by simp [popsOf]⟩
  | cons sid rest ih =>
    intro s s2 h
    rw [List.foldlM_cons] at h
    cases hd : dictLookup s.specs sid with
    | none => rw [hd] at h; cases h
    | some sp =>
      rw [hd] at h
      dsimp only at h
      cases hp : ParseIds args.fitids (fitContainer sp) false with
      | none => rw [hp] at h; cases h
      | some fitids =>
        rw [hp] at h
        dsimp only at h
        obtain ⟨smid, hmid, hrest⟩ := except_bind_ok _ _ _ h
        cases hmid
        obtain ⟨Δ2, hΔ2, hmin2⟩ := ih _ _ hrest
        obtain ⟨Δ1, hΔ1, hmin1⟩ := fitDeleteStep_fold_trace sid fitids s []
        refine ⟨Δ1 ++ Δ2, ?_, ?_⟩
        · rw [hΔ2]
          show _ = s.trace ++ (Δ1 ++ Δ2)
          rw [show (fitDeleteLoop sid fitids s).trace = s.trace ++ Δ1 from hΔ1]
          rw [List.append_assoc]
        · intro k hk
          rw [popsOf_append] at hk
          rcases List.mem_append.1 hk with hk | hk
          · exact hmin1 k hk
          · exact hmin2 k hk

/-- Claim C10: in the "fit delete" handler a fit id carrying a minor
part never removes only that peak: every pop performed by a completed
run is a whole-fit pop (no minor); and when the resolved fit ids all
carry minor parts, the handler warns once per removed fit and pops each
major id at most once, however many minor ids of the same fit appear. -/
theorem fitDelete_whole_fits :
    (∀ args s s2, FitDelete args s = .ok s2 →
        ∀ k ∈ popsOf (s2.trace.drop s.trace.length), k.minor = none)
    ∧ (∀ sid fitids s, (∀ i ∈ fitids, i.minor ≠ none) →
        ((popsOf ((fitDeleteLoop sid fitids s).trace.drop s.trace.length)).map ID.major).Nodup
        ∧ ((fitDeleteLoop sid fitids s).trace.drop s.trace.length).count Event.warn
            = (popsOf ((fitDeleteLoop sid fitids s).trace.drop s.trace.length)).length) := by
  constructor
  · intro args s s2 hok k hk
    unfold FitDelete at hok
    cases hp : ParseIds args.spectrum (specContainer s) true with
    | none => rw [hp] at hok; cases hok
    | some sids =>
      rw [hp] at hok
      dsimp only at hok
      by_cases hs : sids = []
      · rw [if_pos hs] at hok
        cases hok
        simp [uiWarn, List.drop_left, popsOf] at hk
      · rw [if_neg hs] at hok
        obtain ⟨Δ, hΔ, hmin⟩ := fitDelete_sids_trace args sids s s2 hok
        rw [hΔ, List.drop_left] at hk
        exact hmin k hk
  · intro sid fitids s hmin
    obtain ⟨Δ, h1, h2, h3, h4, h5⟩ := fitDeleteStep_fold_minor sid fitids s [] hmin
    have hloop : (fitDeleteLoop sid fitids s).trace = s.trace ++ Δ := h1
    rw [hloop, List.drop_left]
    exact ⟨h2, h4⟩

/-- Witness for C10: three single-peak references into the two stored
fits of the demo session. -/
theorem fitDelete_whole_fits_witness :
    ((popsOf ((fitDeleteLoop ⟨0, none⟩ [⟨0, some 1⟩, ⟨0, some 2⟩, ⟨1, some 3⟩]
        demoSession).trace.drop demoSession.trace.length)).map ID.major).Nodup
    ∧ ((fitDeleteLoop ⟨0, none⟩ [⟨0, some 1⟩, ⟨0, some 2⟩, ⟨1, some 3⟩]
        demoSession).trace.drop demoSession.trace.length).count Event.warn
      = (popsOf ((fitDeleteLoop ⟨0, none⟩ [⟨0, some 1⟩, ⟨0, some 2⟩, ⟨1, some 3⟩]
        demoSession).trace.drop demoSession.trace.length)).length :=
  fitDelete_whole_fits.2 ⟨0, none⟩ [⟨0, some 1⟩, ⟨0, some 2⟩, ⟨1, some 3⟩] demoSession
    (by decide)

/-! ## ReadCalibrationList (specInterface.py lines 138-171) -/

/-- Python str.strip(): drop surrounding whitespace. -/
def trimChars (cs : List Char) : List Char :=
  ((cs.dropWhile Char.isWhitespace).reverse.dropWhile Char.isWhitespace).reverse

/-- Sign prefix of a Python float literal. -/
def parseSign : List Char → (Bool × List Char)
  | '+' :: cs => (false, cs)
  | '-' :: cs => (true, cs)
  | cs => (false, cs)

/-- Mantissa of a Python float literal: digits with an optional point,
at least one digit overall. -/
def parseMantissa (cs : List Char) : Option ℚ :=
  match splitList (fun c => c = '.') cs with
  | [a] => (parseNat a).map (fun n => (n : ℚ))
  | [a, b] =>
    if a = [] && b = [] then none
    else do
      let ip ← if a = [] then some 0 else parseNat a
      let fp ← if b = [] then some 0 else parseNat b
      pure ((ip : ℚ) + (fp : ℚ) / (10 : ℚ) ^ b.length)
  | _ => none

/-- Model of Python float() on the decimal literals a calibration list
holds: optional sign, decimal mantissa, optional decimal exponent
(special values like inf/nan are out of scope of the file format). -/
def pyFloat (cs : List Char) : Option ℚ :=
  let (neg, cs2) := parseSign cs
  match splitList (fun c => c = 'e' || c = 'E') cs2 with
  | [m] => (parseMantissa m).map (fun q => if neg then -q else q)
  | [m, e] => do
      let mq ← parseMantissa m
      let (eneg, ecs) := parseSign e
      let en ← parseNat ecs
      let q := mq * (10 : ℚ) ^ (if eneg then -(en : ℤ) else (en : ℤ))
      pure (if neg then -q else q)
  | _ => none

/-- `SpecInterface.FindSpectrumByName`: linear scan in container order,
first spectrum whose histogram name matches. -/
def findSpectrumByName (s : Session) (name : String) : Option ID :=
  (s.specs.find? (fun e => e.2.name = name)).map (fun e => e.1)

/-- Set one spectrum's calibration coefficients. -/
def setCal (s : Session) (sid : ID) (coeff : List ℚ) : Session :=
  match dictLookup s.specs sid with
  | none => s
  | some sp => { s with specs := dictUpdate s.specs sid { sp with cal := coeff } }

/-- Transliteration of the `ReadCalibrationList` loop body: cut the
comment, strip whitespace, skip blank lines; split at the first colon
(no colon is the unpack ValueError: warn and skip), parse the
whitespace-separated coefficients as floats (a parse failure is the
ValueError: warn and skip); a name matching a loaded spectrum gets its
calibration set, an unmatched name gives an info message only when
`warn_notfound` is set. -/
def calStep (warnNotfound : Bool) (s : Session) (l : String) : Session :=
  let body := trimChars ((splitList (fun c => c = '#') l.toList).headD [])
  if body = [] then s
  else
    match splitList (fun c => c = ':') body with
    | [] => uiWarn s
    | [_] => uiWarn s
    | k :: rest =>
      let name := String.mk (trimChars k)
      let v := List.intercalate [':'] rest
      match ((splitList (fun c => c.isWhitespace) v).filter (fun t => t ≠ [])).mapM pyFloat with
      | none => uiWarn s
      | some coeff =>
        match findSpectrumByName s name with
        | some sid => setCal s sid coeff
        | none => if warnNotfound then uiInfo s else s

/-- Transliteration of `SpecInterface.ReadCalibrationList` over the
lines of an already-opened file: every line is processed, no line
aborts the rest. -/
def ReadCalibrationList (warnNotfound : Bool) (lines : List String) (s : Session) : Session :=
  lines.foldl (calStep warnNotfound) s

/-- Spec-side classification of one calibration-list line, following
the claim's words: a '#' starts a comment, blank lines are ignored, a
record is "name: c0 c1 ...", anything else is malformed. -/
inductive CalLine
  | ignored
  | malformed
  | record (name : String) (coeff : List ℚ)
deriving DecidableEq

/-- Spec-side line parser (for comparison with `calStep`). -/
def calLineClass (l : String) : CalLine :=
  let body := trimChars ((splitList (fun c => c = '#') l.toList).headD [])
  if body = [] then .ignored
  else
    match splitList (fun c => c = ':') body with
    | k :: v :: rest =>
      match ((splitList (fun c => c.isWhitespace) (List.intercalate [':'] (v :: rest))).filter
          (fun t => t ≠ [])).mapM pyFloat with
      | some coeff => .record (String.mk (trimChars k)) coeff
      | none => .malformed
    | _ => .malformed

/-- Spec-side effect of one classified line (for comparison with
`calStep`): ignored lines do nothing, malformed lines warn once and
change nothing else, a record sets the calibration of the first
spectrum matching its name, and an unmatched name gives an info message
only when the warn flag is set. -/
def calApply (flag : Bool) (s : Session) : CalLine → Session
  | .ignored => s
  | .malformed => uiWarn s
  | .record name coeff =>
    match findSpectrumByName s name with
    | some sid => setCal s sid coeff
    | none => if flag then uiInfo s else s

/-- Claim C8: the calibration-list reader handles each line on its own:
a comment-only or blank line is ignored, a line that fails to parse
produces exactly one warning and no other effect, a record whose name
matches a loaded spectrum sets that spectrum calibration to the parsed
coefficients, and an unmatched name produces an info message only when
the warn flag is set; the whole file is a fold of this per-line step
over all lines, so no line aborts the rest. -/
theorem readCalibrationList_spec (flag : Bool) (s : Session) (l : String)
    (lines : List String) :
    calStep flag s l = calApply flag s (calLineClass l)
    ∧ ReadCalibrationList flag lines s = lines.foldl (calStep flag) s
    ∧ warnCount (ReadCalibrationList true
        ["# comment", "   ", "bad line", "spec1: 1 25", "nope: 3"] demoSession) = 1
    ∧ (ReadCalibrationList true
        ["# comment", "   ", "bad line", "spec1: 1 25", "nope: 3"] demoSession).trace.count
        Event.info = 1
    ∧ (dictLookup (ReadCalibrationList true
        ["# comment", "   ", "bad line", "spec1: 1 25", "nope: 3"] demoSession).specs
        ⟨0, none⟩).map Spectrum.cal = some [1, 25] := by
  refine ⟨?_, rfl, by decide, by decide, by decide⟩
  unfold calStep calLineClass
  dsimp only
  by_cases hb : trimChars ((splitList (fun c => c = '#') l.toList).headD []) = []
  · simp only [if_pos hb]
    rfl
  · simp only [if_neg hb]
    cases hsp : splitList (fun c => c = ':')
        (trimChars ((splitList (fun c => c = '#') l.toList).headD [])) with
    | nil => rfl
    | cons k rest0 =>
      cases rest0 with
      | nil => rfl
      | cons v rest =>
        dsimp only
        cases hm : ((splitList (fun c => c.isWhitespace)
            (List.intercalate [':'] (v :: rest))).filter (fun t => t ≠ [])).mapM pyFloat with
        | none => rfl
        | some coeff => rfl
